import Mathlib

/-!
Shallow embedding of the Portainer endpoint data service
(`api/dataservices/endpoint/endpoint.go`) and of the tunnel-coordinator
state machine described by the specification (whose implementation is
declared through the `ReverseTunnelService` interface in `api/portainer.go`).

Go maps (`map[string]EndpointID`, `sync.Map`) are modelled as association
lists where a store conses a fresh binding at the front and a load returns
the first (i.e. most recent) binding.  The persistent store (GORM database)
is modelled as a list of records together with a failure flag standing for
an unreachable store; every database call propagates that failure, matching
the `tx.Error != nil` checks in the Go code.  Wall-clock time
(`time.Now().Unix()`) is passed as an explicit parameter.
-/

/-- `portainer.EndpointID` (a numeric environment identifier). -/
abbrev EndpointID := Nat

/-- The fields of `portainer.Endpoint` that the endpoint data service reads
or writes: `ID`, `Name` (standing for the rest of the record, which the
service carries through unchanged), `EdgeID`, `LastCheckInDate`. -/
structure Endpoint where
  id : EndpointID
  name : String
  edgeID : String
  lastCheckInDate : Int
  deriving Repr, DecidableEq

/-- A store of a key: the binding is consed at the front, so the most
recent store shadows older ones (Go map assignment / `sync.Map.Store`). -/
def mapStore {α β : Type} (m : List (α × β)) (k : α) (v : β) : List (α × β) :=
  (k, v) :: m

/-- A load of a key: first (most recent) binding wins
(Go map read / `sync.Map.Load`). -/
def mapLoad {α β : Type} [DecidableEq α] : List (α × β) → α → Option β
  | [], _ => none
  | p :: m, k => if p.1 = k then some p.2 else mapLoad m k

/-- The persistent store: the endpoint records it holds, and a flag for
the failure mode where database calls return a non-nil `tx.Error`. -/
structure Store where
  records : List Endpoint
  fails : Bool
  deriving Repr, DecidableEq

/-- `db.Find(&endpoints)`: full scan, all records or an error. -/
def Store.scanAll (st : Store) : Except String (List Endpoint) :=
  if st.fails then Except.error "store unavailable" else Except.ok st.records

/-- The in-memory state of `endpoint.Service`: the `idxEdgeID` edge-ID
index and the `heartbeats` concurrent map. -/
structure Service where
  idxEdgeID : List (String × EndpointID)
  heartbeats : List (EndpointID × Int)
  deriving Repr, DecidableEq

/-- `NewService`: empty edge-ID index, empty heartbeat cache. -/
def NewService : Service :=
  { idxEdgeID := [], heartbeats := [] }

/-- `service.endpoints()`: delegates the full scan to the store. -/
def Service.endpoints (st : Store) : Except String (List Endpoint) :=
  Store.scanAll st

/-- The body of the loop in `Service.Init`: index the record's edge-ID when
it is non-empty, and seed the heartbeat cache with the record's persisted
`LastCheckInDate`. -/
def initStep (s : Service) (e : Endpoint) : Service :=
  { idxEdgeID :=
      if e.edgeID.length > 0 then mapStore s.idxEdgeID e.edgeID e.id
      else s.idxEdgeID,
    heartbeats := mapStore s.heartbeats e.id e.lastCheckInDate }

/-- `Service.Init`: scan all endpoints; on scan error return the error with
the service state untouched; otherwise fold `initStep` over the records.
The result pairs the (possibly updated) service state with the returned
error, `none` meaning a nil error. -/
def Service.Init (s : Service) (st : Store) : Service × Option String :=
  match Service.endpoints st with
  | Except.error err => (s, some err)
  | Except.ok es => (List.foldl initStep s es, none)

/-- `Service.EndpointIDByEdgeID`: read of the in-memory index; the Go
function returns the map value and the `ok` flag (zero value when absent). -/
def Service.EndpointIDByEdgeID (s : Service) (edgeID : String) : EndpointID × Bool :=
  match mapLoad s.idxEdgeID edgeID with
  | some i => (i, true)
  | none => (0, false)

/-- `Service.Heartbeat`: load from the heartbeat cache; `(0, false)` when
the cache has no entry. -/
def Service.Heartbeat (s : Service) (endpointID : EndpointID) : Int × Bool :=
  match mapLoad s.heartbeats endpointID with
  | some t => (t, true)
  | none => (0, false)

/-- `Service.UpdateHeartbeat`: store the current wall-clock time (passed
here as `now`) for the given endpoint; nothing else is touched. -/
def Service.UpdateHeartbeat (s : Service) (endpointID : EndpointID) (now : Int) : Service :=
  { s with heartbeats := mapStore s.heartbeats endpointID now }

/-- `Service.Create`: `db.Create(&endpoint)` appends the record to the
store; the in-memory service state is not consulted or modified. -/
def Service.Create (st : Store) (endpoint : Endpoint) : Except String Store :=
  if st.fails then Except.error "store unavailable"
  else Except.ok { st with records := st.records ++ [endpoint] }

/-- `db.Save(&endpoint)`: insert-or-replace keyed by the record's ID. -/
def Store.save (st : Store) (e : Endpoint) : Except String Store :=
  if st.fails then Except.error "store unavailable"
  else if st.records.any (fun r => r.id == e.id) then
    Except.ok { st with records := st.records.map (fun r => if r.id = e.id then e else r) }
  else
    Except.ok { st with records := st.records ++ [e] }

/-- `Service.UpdateEndpoint`: sets `endpoint.ID = ID` and saves the record;
the in-memory service state is not consulted or modified. -/
def Service.UpdateEndpoint (st : Store) (ID : EndpointID) (endpoint : Endpoint) : Except String Store :=
  Store.save st { endpoint with id := ID }

/-- `Service.DeleteEndpoint`: deletes the record with the given ID from the
store; the in-memory service state is not consulted or modified. -/
def Service.DeleteEndpoint (st : Store) (ID : EndpointID) : Except String Store :=
  if st.fails then Except.error "store unavailable"
  else Except.ok { st with records := st.records.filter (fun r => r.id ≠ ID) }

/-- `Service.Endpoints`: full scan, then each record's `LastCheckInDate` is
overwritten with the first component of `Heartbeat` — the Go code discards
the `ok` flag (`t, _ := service.Heartbeat(e.ID)`). -/
def Service.Endpoints (s : Service) (st : Store) : Except String (List Endpoint) :=
  match Service.endpoints st with
  | Except.error err => Except.error err
  | Except.ok es =>
      Except.ok (es.map (fun e => { e with lastCheckInDate := (Service.Heartbeat s e.id).1 }))

/-- The heartbeat values observed by reading `Heartbeat` immediately after
each `UpdateHeartbeat` in a sequence of calls at the given clock times. -/
def observeSeq (s : Service) (endpointID : EndpointID) : List Int → List Int
  | [] => []
  | t :: ts =>
      (Service.Heartbeat (Service.UpdateHeartbeat s endpointID t) endpointID).1 ::
        observeSeq (Service.UpdateHeartbeat s endpointID t) endpointID ts

/-- The record in a list that the `Init` fold leaves in the edge-ID index
under key `eid`: the last record whose edge-ID equals `eid` and is
non-empty, if any. -/
def lastMatch : List Endpoint → String → Option Endpoint
  | [], _ => none
  | e :: es, eid =>
      match lastMatch es eid with
      | some r => some r
      | none => if e.edgeID = eid ∧ e.edgeID.length > 0 then some e else none

/-- The value the `Init` fold leaves in the heartbeat cache under key `k`:
the last record with ID `k`, if any. -/
def lastHB : List Endpoint → EndpointID → Option Int
  | [], _ => none
  | e :: es, k =>
      match lastHB es k with
      | some t => some t
      | none => if e.id = k then some e.lastCheckInDate else none

/-- Tunnel states, from the `EdgeAgent*` constants in `api/portainer.go`
(IDLE / REQUIRED / ACTIVE). -/
inductive TunnelState where
  | idle
  | required
  | active
  deriving Repr, DecidableEq

/-- Modelled from the spec: per-environment tunnel state with its
last-activity timestamp (the keep-alive deadline is last activity plus the
keep-alive duration).  The implementation behind `ReverseTunnelService` is
not part of the sources; only its interface and state constants are. -/
structure Tunnel where
  state : TunnelState
  lastActivity : Int
  deriving Repr, DecidableEq

/-- Modelled from the spec: the tunnel coordinator, one lazily-created
tunnel record per environment ID. -/
structure Coordinator where
  tunnels : List (EndpointID × Tunnel)
  deriving Repr, DecidableEq

/-- Modelled from the spec: reference a tunnel, creating an Idle one on
first reference. -/
def Coordinator.getTunnel (c : Coordinator) (endpointID : EndpointID) : Tunnel :=
  match mapLoad c.tunnels endpointID with
  | some t => t
  | none => { state := TunnelState.idle, lastActivity := 0 }

/-- Modelled from the spec: `setRequired` — any state becomes Required. -/
def Coordinator.setRequired (c : Coordinator) (endpointID : EndpointID) : Coordinator :=
  { tunnels :=
      mapStore c.tunnels endpointID
        { c.getTunnel endpointID with state := TunnelState.required } }

/-- Modelled from the spec: `setActive` — any state becomes Active and the
keep-alive deadline is reset (last activity set to the current time). -/
def Coordinator.setActive (c : Coordinator) (endpointID : EndpointID) (now : Int) : Coordinator :=
  { tunnels :=
      mapStore c.tunnels endpointID
        { state := TunnelState.active, lastActivity := now } }

/-- Modelled from the spec: `status` — the current tunnel state. -/
def Coordinator.status (c : Coordinator) (endpointID : EndpointID) : TunnelState :=
  (c.getTunnel endpointID).state

/-- Modelled from the spec: one sweep step on one tunnel — an Active tunnel
whose keep-alive deadline has elapsed is demoted to Idle. -/
def sweepTunnel (now keepAlive : Int) (t : Tunnel) : Tunnel :=
  if t.state = TunnelState.active ∧ now - t.lastActivity > keepAlive then
    { state := TunnelState.idle, lastActivity := t.lastActivity }
  else t

/-- Modelled from the spec: the background sweep — demote every Active
tunnel whose deadline has elapsed. -/
def Coordinator.sweep (c : Coordinator) (now keepAlive : Int) : Coordinator :=
  { tunnels := c.tunnels.map (fun p => (p.1, sweepTunnel now keepAlive p.2)) }

/-! ### Basic map lemmas -/

theorem mapLoad_store_same {α β : Type} [DecidableEq α] (m : List (α × β)) (k : α) (v : β) :
    mapLoad (mapStore m k v) k = some v := by
  simp [mapStore, mapLoad]

theorem mapLoad_store_ne {α β : Type} [DecidableEq α] (m : List (α × β)) (k k' : α) (v : β)
    (h : k ≠ k') : mapLoad (mapStore m k v) k' = mapLoad m k' := by
  simp [mapStore, mapLoad, h]

theorem mapLoad_mapVal {α β : Type} [DecidableEq α] (f : β → β) (l : List (α × β)) (k : α) :
    mapLoad (l.map (fun p => (p.1, f p.2))) k = Option.map f (mapLoad l k) := by
  induction l with
  | nil => rfl
  | cons p m ih =>
      by_cases h : p.1 = k
      · simp [mapLoad, h]
      · simp [mapLoad, h, ih]

/-! ### Characterization of the `Init` fold -/

theorem init_idx_char (es : List Endpoint) : ∀ (s : Service) (eid : String),
    mapLoad (List.foldl initStep s es).idxEdgeID eid =
      (match lastMatch es eid with
        | some e => some e.id
        | none => mapLoad s.idxEdgeID eid) := by
  induction es with
  | nil => intro s eid; rfl
  | cons a tl ih =>
      intro s eid
      rw [List.foldl_cons, ih]
      cases h : lastMatch tl eid with
      | some r => simp [lastMatch, h]
      | none =>
          simp only [lastMatch, h]
          by_cases hm : a.edgeID = eid ∧ a.edgeID.length > 0
          · obtain ⟨h1, h2⟩ := hm
            subst h1
            simp [initStep, h2, mapLoad_store_same]
          · rw [if_neg hm]
            by_cases hl : a.edgeID.length > 0
            · have hne : a.edgeID ≠ eid := fun hc => hm ⟨hc, hl⟩
              simp [initStep, hl, mapLoad_store_ne _ _ _ _ hne]
            · simp [initStep, hl]

theorem init_hb_char (es : List Endpoint) : ∀ (s : Service) (k : EndpointID),
    mapLoad (List.foldl initStep s es).heartbeats k =
      (match lastHB es k with
        | some t => some t
        | none => mapLoad s.heartbeats k) := by
  induction es with
  | nil => intro s k; rfl
  | cons a tl ih =>
      intro s k
      rw [List.foldl_cons, ih]
      cases h : lastHB tl k with
      | some t => simp [lastHB, h]
      | none =>
          simp only [lastHB, h]
          by_cases hm : a.id = k
          · subst hm
            simp [initStep, mapLoad_store_same]
          · rw [if_neg hm]
            simp [initStep, mapLoad_store_ne _ _ _ _ hm]

/-! ### Lemmas about `lastMatch` and `lastHB` -/

theorem lastMatch_mem {es : List Endpoint} {eid : String} {r : Endpoint}
    (h : lastMatch es eid = some r) : r ∈ es ∧ r.edgeID = eid ∧ r.edgeID.length > 0 := by
  induction es with
  | nil => simp [lastMatch] at h
  | cons a tl ih =>
      simp only [lastMatch] at h
      cases htl : lastMatch tl eid with
      | some q =>
          rw [htl] at h
          obtain ⟨hmem, hp⟩ := ih (htl.trans (by injection h with h2; rw [h2]))
          exact ⟨List.mem_cons_of_mem a hmem, hp⟩
      | none =>
          rw [htl] at h
          by_cases hm : a.edgeID = eid ∧ a.edgeID.length > 0
          · rw [if_pos hm] at h
            injection h with h2
            subst h2
            exact ⟨List.mem_cons_self a tl, hm⟩
          · rw [if_neg hm] at h
            exact absurd h (by simp)

theorem lastMatch_isSome {es : List Endpoint} {eid : String} {e : Endpoint}
    (hmem : e ∈ es) (he : e.edgeID = eid) (hlen : e.edgeID.length > 0) :
    (lastMatch es eid).isSome = true := by
  induction es with
  | nil => exact absurd hmem (List.not_mem_nil e)
  | cons a tl ih =>
      simp only [lastMatch]
      cases htl : lastMatch tl eid with
      | some q => rfl
      | none =>
          rcases List.mem_cons.mp hmem with hea | hetl
          · subst hea
            rw [if_pos ⟨he, hlen⟩]
            rfl
          · have := ih hetl
            rw [htl] at this
            exact absurd this (by simp)

theorem lastMatch_unique {es : List Endpoint} {eid : String} {e : Endpoint}
    (hmem : e ∈ es) (he : e.edgeID = eid) (hlen : e.edgeID.length > 0)
    (huniq : ∀ r ∈ es, r.edgeID = eid → r.edgeID.length > 0 → r = e) :
    lastMatch es eid = some e := by
  cases h : lastMatch es eid with
  | none =>
      have := lastMatch_isSome hmem he hlen
      rw [h] at this
      exact absurd this (by simp)
  | some r =>
      obtain ⟨hrmem, hr1, hr2⟩ := lastMatch_mem h
      rw [huniq r hrmem hr1 hr2]

theorem lastMatch_none_of {es : List Endpoint} {eid : String}
    (h : ∀ e ∈ es, ¬(e.edgeID = eid ∧ e.edgeID.length > 0)) :
    lastMatch es eid = none := by
  induction es with
  | nil => rfl
  | cons a tl ih =>
      simp only [lastMatch]
      rw [ih (fun e he => h e (List.mem_cons_of_mem a he))]
      rw [if_neg (h a (List.mem_cons_self a tl))]

theorem lastMatch_concat (l : List Endpoint) (e : Endpoint) (eid : String) :
    lastMatch (l ++ [e]) eid =
      if e.edgeID = eid ∧ e.edgeID.length > 0 then some e else lastMatch l eid := by
  induction l with
  | nil => rfl
  | cons a tl ih =>
      show (match lastMatch (tl ++ [e]) eid with
        | some r => some r
        | none => if a.edgeID = eid ∧ a.edgeID.length > 0 then some a else none) = _
      rw [ih]
      by_cases hm : e.edgeID = eid ∧ e.edgeID.length > 0
      · rw [if_pos hm, if_pos hm]
      · rw [if_neg hm, if_neg hm]
        rfl

theorem lastHB_mem {es : List Endpoint} {k : EndpointID} {t : Int}
    (h : lastHB es k = some t) : ∃ r ∈ es, r.id = k ∧ r.lastCheckInDate = t := by
  induction es with
  | nil => simp [lastHB] at h
  | cons a tl ih =>
      simp only [lastHB] at h
      cases htl : lastHB tl k with
      | some q =>
          rw [htl] at h
          injection h with h2
          subst h2
          obtain ⟨r, hr⟩ := ih htl
          exact ⟨r, List.mem_cons_of_mem a hr.1, hr.2⟩
      | none =>
          rw [htl] at h
          by_cases hm : a.id = k
          · rw [if_pos hm] at h
            injection h with h2
            exact ⟨a, List.mem_cons_self a tl, hm, h2⟩
          · rw [if_neg hm] at h
            exact absurd h (by simp)

theorem lastHB_isSome {es : List Endpoint} {k : EndpointID} {e : Endpoint}
    (hmem : e ∈ es) (he : e.id = k) : (lastHB es k).isSome = true := by
  induction es with
  | nil => exact absurd hmem (List.not_mem_nil e)
  | cons a tl ih =>
      simp only [lastHB]
      cases htl : lastHB tl k with
      | some q => rfl
      | none =>
          rcases List.mem_cons.mp hmem with hea | hetl
          · subst hea
            rw [if_pos he]
            rfl
          · have := ih hetl
            rw [htl] at this
            exact absurd this (by simp)

theorem lastHB_unique {es : List Endpoint} {k : EndpointID} {e : Endpoint}
    (hmem : e ∈ es) (he : e.id = k)
    (huniq : ∀ r ∈ es, r.id = k → r.lastCheckInDate = e.lastCheckInDate) :
    lastHB es k = some e.lastCheckInDate := by
  cases h : lastHB es k with
  | none =>
      have := lastHB_isSome hmem he
      rw [h] at this
      exact absurd this (by simp)
  | some t =>
      obtain ⟨r, hrmem, hr1, hr2⟩ := lastHB_mem h
      rw [← hr2, huniq r hrmem hr1]

/-! ### Unfolding lemmas for the service operations -/

theorem Init_ok {s : Service} {st : Store} (h : st.fails = false) :
    Service.Init s st = (List.foldl initStep s st.records, none) := by
  simp [Service.Init, Service.endpoints, Store.scanAll, h]

theorem Init_err {s : Service} {st : Store} (h : st.fails = true) :
    Service.Init s st = (s, some "store unavailable") := by
  simp [Service.Init, Service.endpoints, Store.scanAll, h]

theorem lookup_init (st : Store) (eid : String) (h : st.fails = false) :
    Service.EndpointIDByEdgeID (Service.Init NewService st).1 eid =
      (match lastMatch st.records eid with
        | some e => (e.id, true)
        | none => (0, false)) := by
  rw [Init_ok h]
  show Service.EndpointIDByEdgeID (List.foldl initStep NewService st.records) eid = _
  rw [Service.EndpointIDByEdgeID, init_idx_char]
  cases lastMatch st.records eid with
  | some e => rfl
  | none => rfl

theorem heartbeat_init (st : Store) (k : EndpointID) (h : st.fails = false) :
    Service.Heartbeat (Service.Init NewService st).1 k =
      (match lastHB st.records k with
        | some t => (t, true)
        | none => (0, false)) := by
  rw [Init_ok h]
  show Service.Heartbeat (List.foldl initStep NewService st.records) k = _
  rw [Service.Heartbeat, init_hb_char]
  cases lastHB st.records k with
  | some t => rfl
  | none => rfl

theorem heartbeat_after_update (s : Service) (k : EndpointID) (now : Int) :
    Service.Heartbeat (Service.UpdateHeartbeat s k now) k = (now, true) := by
  simp [Service.Heartbeat, Service.UpdateHeartbeat, mapLoad_store_same]

theorem heartbeat_miss_val {s : Service} {k : EndpointID}
    (h : (Service.Heartbeat s k).2 = false) : (Service.Heartbeat s k).1 = 0 := by
  rw [Service.Heartbeat] at h ⊢
  cases hm : mapLoad s.heartbeats k with
  | some t => rw [hm] at h; simp at h
  | none => rfl

theorem observeSeq_eq (k : EndpointID) : ∀ (ts : List Int) (s : Service),
    observeSeq s k ts = ts := by
  intro ts
  induction ts with
  | nil => intro s; rfl
  | cons t ts ih =>
      intro s
      rw [observeSeq, heartbeat_after_update, ih]

theorem Endpoints_ok {s : Service} {st : Store} (h : st.fails = false) :
    Service.Endpoints s st =
      Except.ok (st.records.map
        (fun e => { e with lastCheckInDate := (Service.Heartbeat s e.id).1 })) := by
  simp [Service.Endpoints, Service.endpoints, Store.scanAll, h]

theorem Endpoints_err {s : Service} {st : Store} (h : st.fails = true) :
    Service.Endpoints s st = Except.error "store unavailable" := by
  simp [Service.Endpoints, Service.endpoints, Store.scanAll, h]

/-! ### Claim theorems -/

/-- C5: `recordHeartbeat` (UpdateHeartbeat) followed immediately by
`getHeartbeat` (Heartbeat) on the same ID returns found = true and a
timestamp ≥ the timestamp held for that ID before the call (assuming the
clock has not gone backwards past the held value), and over a sequence of
sequential calls at non-decreasing clock times the observed heartbeat is
monotonically non-decreasing. -/
theorem heartbeat_monotone (s : Service) (k : EndpointID) (now : Int) (ts : List Int)
    (h1 : (Service.Heartbeat s k).2 = true → (Service.Heartbeat s k).1 ≤ now)
    (h2 : ts.Chain' (· ≤ ·)) :
    Service.Heartbeat (Service.UpdateHeartbeat s k now) k = (now, true) ∧
    (∀ t0 : Int, Service.Heartbeat s k = (t0, true) →
      t0 ≤ (Service.Heartbeat (Service.UpdateHeartbeat s k now) k).1) ∧
    (observeSeq s k ts).Chain' (· ≤ ·) := by
  refine ⟨heartbeat_after_update s k now, ?_, ?_⟩
  · intro t0 ht0
    rw [heartbeat_after_update]
    have hv : (Service.Heartbeat s k).1 = t0 := by rw [ht0]
    have hf : (Service.Heartbeat s k).2 = true := by rw [ht0]
    exact hv ▸ h1 hf
  · rw [observeSeq_eq]
    exact h2

/-- Witness for C5 at a concrete service, ID, time and call sequence. -/
theorem heartbeat_monotone_witness :
    Service.Heartbeat (Service.UpdateHeartbeat NewService 5 10) 5 = (10, true) ∧
    (∀ t0 : Int, Service.Heartbeat NewService 5 = (t0, true) →
      t0 ≤ (Service.Heartbeat (Service.UpdateHeartbeat NewService 5 10) 5).1) ∧
    (observeSeq NewService 5 [1, 2, 2, 7]).Chain' (· ≤ ·) :=
  heartbeat_monotone NewService 5 10 [1, 2, 2, 7] (by decide)
    (by norm_num [List.chain'_cons, List.chain'_singleton])

/-- C7: `recordHeartbeat` (UpdateHeartbeat) on one ID leaves the heartbeat
value and presence of every other ID unchanged, and leaves the edge-ID
index (hence every `lookupByEdgeID` result) unchanged. -/
theorem update_heartbeat_frame (s : Service) (id1 id2 : EndpointID) (now : Int)
    (h : id1 ≠ id2) :
    Service.Heartbeat (Service.UpdateHeartbeat s id1 now) id2 = Service.Heartbeat s id2 ∧
    (Service.UpdateHeartbeat s id1 now).idxEdgeID = s.idxEdgeID ∧
    ∀ eid : String,
      Service.EndpointIDByEdgeID (Service.UpdateHeartbeat s id1 now) eid =
        Service.EndpointIDByEdgeID s eid := by
  refine ⟨?_, rfl, fun eid => rfl⟩
  rw [Service.Heartbeat, Service.Heartbeat, Service.UpdateHeartbeat,
    mapLoad_store_ne _ _ _ _ h]

/-- Witness for C7 at a concrete service and pair of distinct IDs. -/
theorem update_heartbeat_frame_witness :
    Service.Heartbeat
        (Service.UpdateHeartbeat { idxEdgeID := [("edge-a", 2)], heartbeats := [(2, 9)] } 1 50) 2 =
      Service.Heartbeat { idxEdgeID := [("edge-a", 2)], heartbeats := [(2, 9)] } 2 ∧
    (Service.UpdateHeartbeat { idxEdgeID := [("edge-a", 2)], heartbeats := [(2, 9)] } 1 50).idxEdgeID =
      Service.idxEdgeID { idxEdgeID := [("edge-a", 2)], heartbeats := [(2, 9)] } ∧
    ∀ eid : String,
      Service.EndpointIDByEdgeID
          (Service.UpdateHeartbeat { idxEdgeID := [("edge-a", 2)], heartbeats := [(2, 9)] } 1 50) eid =
        Service.EndpointIDByEdgeID { idxEdgeID := [("edge-a", 2)], heartbeats := [(2, 9)] } eid :=
  update_heartbeat_frame { idxEdgeID := [("edge-a", 2)], heartbeats := [(2, 9)] } 1 2 50 (by decide)

/-- C8: `Init` returns an error iff the store's full scan fails, and on
that failure the service state is untouched (in particular, starting from
`NewService` the edge-ID index and heartbeat cache remain empty — no
partial seeding); `Endpoints` likewise returns an error, and no list,
exactly when its store scan fails. -/
theorem init_and_endpoints_error_iff (s : Service) (st : Store) :
    ((Service.Init s st).2.isSome = true ↔ st.fails = true) ∧
    (st.fails = true → (Service.Init s st).1 = s) ∧
    ((Service.Init NewService st).2.isSome = true →
      (Service.Init NewService st).1.idxEdgeID = [] ∧
      (Service.Init NewService st).1.heartbeats = []) ∧
    ((∃ err, Service.Endpoints s st = Except.error err) ↔ st.fails = true) ∧
    (st.fails = true → ∀ es, Service.Endpoints s st ≠ Except.ok es) := by
  cases hf : st.fails
  · simp [Init_ok hf, Endpoints_ok hf]
  · simp [Init_err hf, Endpoints_err hf, NewService]

/-- Witness for C8: on a failing store, `Init` leaves the state untouched. -/
theorem init_and_endpoints_error_iff_witness :
    (Service.Init NewService { records := [], fails := true }).1 = NewService :=
  (init_and_endpoints_error_iff NewService { records := [], fails := true }).2.1 rfl

/-- C9 (tunnel coordinator modelled from the spec): `setRequired` on a
fresh ID followed by `setActive` at time `t0`, then a background sweep with
keep-alive `ka`: a sweep at a time within the keep-alive window leaves the
status Active, and a sweep after the keep-alive duration has elapsed with
no further activity leaves the status Idle. -/
theorem getTunnel_sweep (c : Coordinator) (k : EndpointID) (now ka : Int) :
    Coordinator.getTunnel (Coordinator.sweep c now ka) k =
      sweepTunnel now ka (Coordinator.getTunnel c k) := by
  simp only [Coordinator.getTunnel, Coordinator.sweep, mapLoad_mapVal]
  cases h : mapLoad c.tunnels k with
  | some t => simp [h]
  | none => simp [h, sweepTunnel]

theorem getTunnel_setActive (c : Coordinator) (k : EndpointID) (now : Int) :
    Coordinator.getTunnel (Coordinator.setActive c k now) k =
      { state := TunnelState.active, lastActivity := now } := by
  simp [Coordinator.getTunnel, Coordinator.setActive, mapLoad_store_same]

/-- C9 (tunnel coordinator modelled from the spec): `setRequired` on a
fresh ID followed by `setActive` at time `t0`, then a background sweep with
keep-alive `ka`: a sweep at a time within the keep-alive window leaves the
status Active, and a sweep after the keep-alive duration has elapsed with
no further activity leaves the status Idle. -/
theorem tunnel_sweep_idle (c : Coordinator) (k : EndpointID) (t0 ka t1 t2 : Int)
    (_hfresh : mapLoad c.tunnels k = none)
    (h1 : t1 - t0 ≤ ka) (h2 : t2 - t0 > ka) :
    Coordinator.status
        (Coordinator.sweep (Coordinator.setActive (Coordinator.setRequired c k) k t0) t1 ka) k =
      TunnelState.active ∧
    Coordinator.status
        (Coordinator.sweep (Coordinator.setActive (Coordinator.setRequired c k) k t0) t2 ka) k =
      TunnelState.idle := by
  have h1' : ¬(ka < t1 - t0) := not_lt.mpr h1
  constructor
  · rw [Coordinator.status, getTunnel_sweep, getTunnel_setActive]
    simp [sweepTunnel, h1']
  · rw [Coordinator.status, getTunnel_sweep, getTunnel_setActive]
    simp [sweepTunnel, h2]

/-- Witness for C9: the concrete scenario of the claim — keep-alive 60,
`setActive` at t = 0, a sweep at t = 30 leaves Active and a sweep at
t = 61 yields Idle. -/
theorem tunnel_sweep_idle_witness :
    Coordinator.status
        (Coordinator.sweep
          (Coordinator.setActive (Coordinator.setRequired { tunnels := [] } 9) 9 0) 30 60) 9 =
      TunnelState.active ∧
    Coordinator.status
        (Coordinator.sweep
          (Coordinator.setActive (Coordinator.setRequired { tunnels := [] } 9) 9 0) 61 60) 9 =
      TunnelState.idle :=
  tunnel_sweep_idle { tunnels := [] } 9 0 60 30 61 rfl (by decide) (by decide)

/-- C10: `UpdateEndpoint` saves the passed record re-keyed to the ID given
as the argument: every record of the resulting store is either an old
record or exactly the passed record with its `ID` field overwritten by the
argument, and that re-keyed record is present in the resulting store. -/
theorem update_endpoint_forces_id (st st2 : Store) (ID : EndpointID) (endpoint : Endpoint)
    (hok : Service.UpdateEndpoint st ID endpoint = Except.ok st2) :
    (∀ r ∈ st2.records, r ∈ st.records ∨ r = { endpoint with id := ID }) ∧
    { endpoint with id := ID } ∈ st2.records ∧
    Endpoint.id { endpoint with id := ID } = ID := by
  rw [Service.UpdateEndpoint, Store.save] at hok
  cases hf : st.fails
  · rw [hf] at hok
    simp only [Bool.false_eq_true, if_false] at hok
    by_cases hany : st.records.any (fun r => r.id == Endpoint.id { endpoint with id := ID }) = true
    · rw [if_pos hany] at hok
      injection hok with hok2
      subst hok2
      refine ⟨?_, ?_, rfl⟩
      · intro r hr
        simp only [List.mem_map] at hr
        obtain ⟨a, ha, hfa⟩ := hr
        by_cases hid : a.id = Endpoint.id { endpoint with id := ID }
        · rw [if_pos hid] at hfa
          exact Or.inr hfa.symm
        · rw [if_neg hid] at hfa
          exact Or.inl (hfa ▸ ha)
      · simp only [List.any_eq_true, beq_iff_eq] at hany
        obtain ⟨a, ha, hid⟩ := hany
        simp only [List.mem_map]
        exact ⟨a, ha, by rw [if_pos hid]⟩
    · rw [if_neg hany] at hok
      injection hok with hok2
      subst hok2
      refine ⟨?_, ?_, rfl⟩
      · intro r hr
        rcases List.mem_append.mp hr with hl | hr2
        · exact Or.inl hl
        · exact Or.inr (List.mem_singleton.mp hr2)
      · exact List.mem_append_right _ (List.mem_singleton.mpr rfl)
  · rw [hf] at hok
    simp at hok

/-- Witness for C10: updating ID 3 with a record whose own ID field is 8
stores the record under ID 3. -/
theorem update_endpoint_forces_id_witness :
    ({ id := 3, name := "new", edgeID := "e", lastCheckInDate := 2 } : Endpoint) ∈
      ([{ id := 8, name := "keep", edgeID := "", lastCheckInDate := 4 },
        { id := 3, name := "new", edgeID := "e", lastCheckInDate := 2 }] : List Endpoint) :=
  (update_endpoint_forces_id
    { records := [{ id := 8, name := "keep", edgeID := "", lastCheckInDate := 4 },
      { id := 3, name := "old", edgeID := "", lastCheckInDate := 1 }], fails := false }
    { records := [{ id := 8, name := "keep", edgeID := "", lastCheckInDate := 4 },
      { id := 3, name := "new", edgeID := "e", lastCheckInDate := 2 }], fails := false }
    3 { id := 8, name := "new", edgeID := "e", lastCheckInDate := 2 } rfl).2.1

/-- C3: after a successful `Init` on a store whose records carry pairwise
distinct IDs and pairwise distinct non-empty edge-IDs, the edge-ID index
resolves exactly the records with a non-empty edge-ID (an edge-ID carried
by no record, in particular one carried only with an empty value, is not
found), and the heartbeat cache holds every record's persisted
last-check-in value. -/
theorem init_seeds_index_and_heartbeats (st : Store)
    (hfails : st.fails = false)
    (hids : st.records.Pairwise (fun a b => a.id ≠ b.id))
    (hedges : st.records.Pairwise
      (fun a b => a.edgeID.length > 0 → b.edgeID.length > 0 → a.edgeID ≠ b.edgeID)) :
    (∀ e ∈ st.records,
      (e.edgeID.length > 0 →
        Service.EndpointIDByEdgeID (Service.Init NewService st).1 e.edgeID = (e.id, true)) ∧
      Service.Heartbeat (Service.Init NewService st).1 e.id = (e.lastCheckInDate, true)) ∧
    (∀ eid : String, (∀ e ∈ st.records, ¬(e.edgeID = eid ∧ e.edgeID.length > 0)) →
      (Service.EndpointIDByEdgeID (Service.Init NewService st).1 eid).2 = false) := by
  have hedgesym : Symmetric
      (fun a b : Endpoint => a.edgeID.length > 0 → b.edgeID.length > 0 → a.edgeID ≠ b.edgeID) :=
    fun a b h hb ha => Ne.symm (h ha hb)
  have hidsym : Symmetric (fun a b : Endpoint => a.id ≠ b.id) :=
    fun a b h => Ne.symm h
  constructor
  · intro e hmem
    constructor
    · intro hlen
      rw [lookup_init st e.edgeID hfails]
      rw [lastMatch_unique hmem rfl hlen]
      intro r hr hre hrl
      by_cases hre2 : r = e
      · exact hre2
      · exact absurd hre (hedges.forall hedgesym hr hmem hre2 hrl hlen)
    · rw [heartbeat_init st e.id hfails]
      rw [lastHB_unique hmem rfl]
      intro r hr hrid
      by_cases hre2 : r = e
      · rw [hre2]
      · exact absurd hrid (hids.forall hidsym hr hmem hre2)
  · intro eid hnone
    rw [lookup_init st eid hfails, lastMatch_none_of hnone]

/-- Witness for C3 at a concrete two-record store (one record with a
non-empty edge-ID, one without). -/
theorem init_seeds_index_and_heartbeats_witness :
    Service.EndpointIDByEdgeID
        (Service.Init NewService
          { records := [{ id := 1, name := "a", edgeID := "edge-a", lastCheckInDate := 11 },
            { id := 2, name := "b", edgeID := "", lastCheckInDate := 22 }], fails := false }).1
        "edge-a" = (1, true) ∧
    Service.Heartbeat
        (Service.Init NewService
          { records := [{ id := 1, name := "a", edgeID := "edge-a", lastCheckInDate := 11 },
            { id := 2, name := "b", edgeID := "", lastCheckInDate := 22 }], fails := false }).1
        2 = (22, true) := by
  have h := init_seeds_index_and_heartbeats
    { records := [{ id := 1, name := "a", edgeID := "edge-a", lastCheckInDate := 11 },
      { id := 2, name := "b", edgeID := "", lastCheckInDate := 22 }], fails := false }
    rfl (by simp) (by simp)
  exact ⟨(h.1 { id := 1, name := "a", edgeID := "edge-a", lastCheckInDate := 11 }
      (by simp)).1 (by decide),
    (h.1 { id := 2, name := "b", edgeID := "", lastCheckInDate := 22 } (by simp)).2⟩

/-- C1 counterexample: `Create` never touches the in-memory edge-ID index,
so for the environment {id 7, edge-ID "edge-abc"} created on an empty
store through a fresh service, the lookup performed immediately after the
create call returns (0, false), not (7, true). -/
theorem create_lookup_counterexample :
    ("edge-abc".length > 0) ∧
    Service.Create { records := [], fails := false }
        { id := 7, name := "env7", edgeID := "edge-abc", lastCheckInDate := 0 } =
      Except.ok { records := [{ id := 7, name := "env7", edgeID := "edge-abc", lastCheckInDate := 0 }], fails := false } ∧
    Service.EndpointIDByEdgeID NewService "edge-abc" = (0, false) :=
  ⟨by decide, rfl, rfl⟩

/-- C1 amended: the lookup resolves the created environment's edge-ID only
after a re-`Init` from the store state produced by the create: for every
environment E created with a non-empty edge-ID, `EndpointIDByEdgeID` of
E's edge-ID on a service re-initialized from the post-create store returns
(E.id, true); immediately after the create call alone the index is
unchanged. -/
theorem create_then_reinit_lookup (st st2 : Store) (e : Endpoint)
    (hlen : e.edgeID.length > 0)
    (hok : Service.Create st e = Except.ok st2)
    (hfails2 : st2.fails = false) :
    Service.EndpointIDByEdgeID (Service.Init NewService st2).1 e.edgeID = (e.id, true) := by
  rw [Service.Create] at hok
  cases hf : st.fails
  · rw [hf] at hok
    simp only [Bool.false_eq_true, if_false] at hok
    injection hok with hok2
    subst hok2
    rw [lookup_init _ _ hfails2]
    dsimp only
    rw [lastMatch_concat, if_pos ⟨rfl, hlen⟩]
  · rw [hf] at hok
    simp at hok

/-- Witness for C1 amended: create {id 7, edge-ID "edge-abc"} on the empty
store, re-initialize, look up "edge-abc". -/
theorem create_then_reinit_lookup_witness :
    Service.EndpointIDByEdgeID
        (Service.Init NewService
          { records := [{ id := 7, name := "env7", edgeID := "edge-abc", lastCheckInDate := 0 }], fails := false }).1
        "edge-abc" = (7, true) :=
  create_then_reinit_lookup { records := [], fails := false }
    { records := [{ id := 7, name := "env7", edgeID := "edge-abc", lastCheckInDate := 0 }], fails := false }
    { id := 7, name := "env7", edgeID := "edge-abc", lastCheckInDate := 0 }
    (by decide) rfl rfl

/-- C2 counterexample: `DeleteEndpoint` never purges the in-memory edge-ID
index, so on a service initialized from a store holding environment
{id 7, edge-ID "edge-abc"}, the delete of ID 7 succeeds on the store yet
the lookup of "edge-abc" on that service still returns (7, true), not
found = false. -/
theorem delete_lookup_counterexample :
    Service.DeleteEndpoint
        { records := [{ id := 7, name := "env7", edgeID := "edge-abc", lastCheckInDate := 0 }], fails := false } 7 =
      Except.ok { records := [], fails := false } ∧
    Service.EndpointIDByEdgeID
        (Service.Init NewService
          { records := [{ id := 7, name := "env7", edgeID := "edge-abc", lastCheckInDate := 0 }], fails := false }).1
        "edge-abc" = (7, true) :=
  ⟨rfl, by decide⟩

/-- C2 amended: the former edge-ID stops resolving only after a re-`Init`
from the post-delete store: if every record carrying that edge-ID had the
deleted ID, then after `DeleteEndpoint` succeeds and the service is
re-initialized from the resulting store, the lookup returns found = false;
without the re-initialization the stale index entry survives. -/
theorem delete_then_reinit_lookup (st st2 : Store) (ID : EndpointID) (eid : String)
    (hok : Service.DeleteEndpoint st ID = Except.ok st2)
    (hfails2 : st2.fails = false)
    (hall : ∀ e ∈ st.records, e.edgeID = eid → e.id = ID) :
    (Service.EndpointIDByEdgeID (Service.Init NewService st2).1 eid).2 = false := by
  rw [Service.DeleteEndpoint] at hok
  cases hf : st.fails
  · rw [hf] at hok
    simp only [Bool.false_eq_true, if_false] at hok
    injection hok with hok2
    subst hok2
    rw [lookup_init _ _ hfails2]
    dsimp only
    have hn : ∀ e ∈ st.records.filter (fun r => r.id ≠ ID),
        ¬(e.edgeID = eid ∧ e.edgeID.length > 0) := by
      intro e he hm
      obtain ⟨hmem, hne⟩ := List.mem_filter.mp he
      have hne2 : e.id ≠ ID := by simpa using hne
      exact hne2 (hall e hmem hm.1)
    rw [lastMatch_none_of hn]
  · rw [hf] at hok
    simp at hok

/-- Witness for C2 amended: delete ID 7 from a one-record store, then
re-initialize and look up the former edge-ID. -/
theorem delete_then_reinit_lookup_witness :
    (Service.EndpointIDByEdgeID
        (Service.Init NewService { records := [], fails := false }).1 "edge-abc").2 = false := by
  have h := delete_then_reinit_lookup
    { records := [{ id := 7, name := "env7", edgeID := "edge-abc", lastCheckInDate := 0 }], fails := false }
    { records := [], fails := false } 7 "edge-abc" rfl rfl
    (by intro e he hm; simp at he; rw [he])
  exact h

/-- C4 counterexample: `Endpoints` discards the `ok` flag of `Heartbeat`,
so a record with persisted last-check-in 42 and no cache entry is returned
with last-check-in 0 — the persisted value is not kept on a cache miss. -/
theorem endpoints_overlay_counterexample :
    Service.Endpoints NewService
        { records := [{ id := 7, name := "env7", edgeID := "", lastCheckInDate := 42 }], fails := false } =
      Except.ok [{ id := 7, name := "env7", edgeID := "", lastCheckInDate := 0 }] ∧
    (Service.Heartbeat NewService 7).2 = false :=
  ⟨rfl, rfl⟩

/-- C4 amended: `Endpoints` returns exactly the fresh store scan with each
record's last-check-in replaced by the first component of `Heartbeat`: the
cached heartbeat when a cache entry exists, and zero — not the persisted
value — when the cache has no entry for that environment. -/
theorem endpoints_overlay (s : Service) (st : Store) (es : List Endpoint)
    (hok : Service.Endpoints s st = Except.ok es) :
    es.length = st.records.length ∧
    ∀ i (hi : i < es.length) (hi2 : i < st.records.length),
      (es.get ⟨i, hi⟩).id = (st.records.get ⟨i, hi2⟩).id ∧
      (es.get ⟨i, hi⟩).name = (st.records.get ⟨i, hi2⟩).name ∧
      (es.get ⟨i, hi⟩).edgeID = (st.records.get ⟨i, hi2⟩).edgeID ∧
      (∀ t : Int, Service.Heartbeat s (st.records.get ⟨i, hi2⟩).id = (t, true) →
        (es.get ⟨i, hi⟩).lastCheckInDate = t) ∧
      ((Service.Heartbeat s (st.records.get ⟨i, hi2⟩).id).2 = false →
        (es.get ⟨i, hi⟩).lastCheckInDate = 0) := by
  cases hf : st.fails
  · rw [Endpoints_ok hf] at hok
    injection hok with hok2
    subst hok2
    constructor
    · exact List.length_map _ _
    · intro i hi hi2
      have hg : (List.map
            (fun e => { e with lastCheckInDate := (Service.Heartbeat s e.id).1 })
            st.records).get ⟨i, hi⟩ =
          { st.records.get ⟨i, hi2⟩ with
            lastCheckInDate := (Service.Heartbeat s (st.records.get ⟨i, hi2⟩).id).1 } := by
        simp [List.get_eq_getElem, List.getElem_map]
      rw [hg]
      refine ⟨rfl, rfl, rfl, ?_, ?_⟩
      · intro t ht
        show (Service.Heartbeat s (st.records.get ⟨i, hi2⟩).id).1 = t
        rw [ht]
      · intro hmiss
        exact heartbeat_miss_val hmiss
  · rw [Endpoints_err hf] at hok
    simp at hok

/-- Witness for C4 amended: one cached environment keeps its cached value,
evaluated at the record with cached heartbeat 99. -/
theorem endpoints_overlay_witness :
    (([{ id := 1, name := "a", edgeID := "", lastCheckInDate := 99 },
       { id := 2, name := "b", edgeID := "", lastCheckInDate := 0 }] : List Endpoint).get
        ⟨0, by decide⟩).lastCheckInDate = 99 := by
  have h := endpoints_overlay { idxEdgeID := [], heartbeats := [(1, 99)] }
    { records := [{ id := 1, name := "a", edgeID := "", lastCheckInDate := 5 },
      { id := 2, name := "b", edgeID := "", lastCheckInDate := 7 }], fails := false }
    [{ id := 1, name := "a", edgeID := "", lastCheckInDate := 99 },
     { id := 2, name := "b", edgeID := "", lastCheckInDate := 0 }] rfl
  exact (h.2 0 (by decide) (by decide)).2.2.2.1 99 (by decide)

theorem lookup_init_found {st : Store} {eid : String} {r : Endpoint}
    (hfails : st.fails = false) (h : lastMatch st.records eid = some r) :
    Service.EndpointIDByEdgeID (Service.Init NewService st).1 eid = (r.id, true) := by
  rw [lookup_init _ _ hfails, h]

theorem lookup_init_missing {st : Store} {eid : String}
    (hfails : st.fails = false) (h : lastMatch st.records eid = none) :
    (Service.EndpointIDByEdgeID (Service.Init NewService st).1 eid).2 = false := by
  rw [lookup_init _ _ hfails, h]

/-- C6 counterexample: `UpdateEndpoint` never touches the in-memory
edge-ID index: on a service initialized from a store holding environment
{id 1, edge-ID "old"}, updating the record's edge-ID to "new" succeeds on
the store yet the lookup of "new" returns (0, false) and the stale entry
for "old" still returns (1, true). -/
theorem update_edge_index_counterexample :
    Service.UpdateEndpoint
        { records := [{ id := 1, name := "n", edgeID := "old", lastCheckInDate := 0 }], fails := false } 1
        { id := 1, name := "n", edgeID := "new", lastCheckInDate := 0 } =
      Except.ok { records := [{ id := 1, name := "n", edgeID := "new", lastCheckInDate := 0 }], fails := false } ∧
    Service.EndpointIDByEdgeID
        (Service.Init NewService
          { records := [{ id := 1, name := "n", edgeID := "old", lastCheckInDate := 0 }], fails := false }).1
        "new" = (0, false) ∧
    Service.EndpointIDByEdgeID
        (Service.Init NewService
          { records := [{ id := 1, name := "n", edgeID := "old", lastCheckInDate := 0 }], fails := false }).1
        "old" = (1, true) :=
  ⟨rfl, by decide, by decide⟩

/-- C6 amended: the edge-ID index reflects an edge-ID change only after a
re-`Init` from the updated store: if `UpdateEndpoint` saves record `e`
under ID with a new non-empty edge-ID claimed by no other record, and the
old edge-ID was claimed by no other record either, then after
re-initialization the new edge-ID resolves to ID and the old edge-ID is
not found; without the re-initialization the index is unchanged (stale). -/
theorem update_then_reinit_lookup (st st2 : Store) (ID : EndpointID) (e : Endpoint) (oldEid : String)
    (hok : Service.UpdateEndpoint st ID e = Except.ok st2)
    (hfails2 : st2.fails = false)
    (hlen : e.edgeID.length > 0)
    (hnew : ∀ r ∈ st.records, r.id ≠ ID → r.edgeID ≠ e.edgeID)
    (hold : ∀ r ∈ st.records, r.id ≠ ID → r.edgeID ≠ oldEid)
    (holdNe : oldEid ≠ e.edgeID) :
    Service.EndpointIDByEdgeID (Service.Init NewService st2).1 e.edgeID = (ID, true) ∧
    (Service.EndpointIDByEdgeID (Service.Init NewService st2).1 oldEid).2 = false := by
  rw [Service.UpdateEndpoint, Store.save] at hok
  dsimp only at hok
  cases hf : st.fails
  · rw [hf] at hok
    simp only [Bool.false_eq_true, if_false] at hok
    by_cases hany : st.records.any (fun r => r.id == ID) = true
    · rw [if_pos hany] at hok
      injection hok with hok2
      have hrec : st2.records =
          st.records.map (fun r => if r.id = ID then { e with id := ID } else r) := by
        rw [← hok2]
      refine ⟨?_, ?_⟩
      · have hlm : lastMatch st2.records e.edgeID = some { e with id := ID } := by
          rw [hrec]
          apply lastMatch_unique
          · simp only [List.any_eq_true, beq_iff_eq] at hany
            obtain ⟨a, ha, hid⟩ := hany
            exact List.mem_map.mpr ⟨a, ha, by rw [if_pos hid]⟩
          · rfl
          · exact hlen
          · intro r hr hre hrl
            obtain ⟨a, ha, hfa⟩ := List.mem_map.mp hr
            by_cases hid : a.id = ID
            · rw [if_pos hid] at hfa
              exact hfa.symm
            · rw [if_neg hid] at hfa
              rw [← hfa] at hre
              exact absurd hre (hnew a ha hid)
        exact lookup_init_found hfails2 hlm
      · have hlm : lastMatch st2.records oldEid = none := by
          rw [hrec]
          apply lastMatch_none_of
          intro r hr hm
          obtain ⟨a, ha, hfa⟩ := List.mem_map.mp hr
          by_cases hid : a.id = ID
          · rw [if_pos hid] at hfa
            rw [← hfa] at hm
            exact Ne.symm holdNe hm.1
          · rw [if_neg hid] at hfa
            rw [← hfa] at hm
            exact hold a ha hid hm.1
        exact lookup_init_missing hfails2 hlm
    · rw [if_neg hany] at hok
      injection hok with hok2
      have hrec : st2.records = st.records ++ [{ e with id := ID }] := by
        rw [← hok2]
      have hnotID : ∀ r ∈ st.records, r.id ≠ ID := by
        intro r hr hc
        exact hany (List.any_eq_true.mpr ⟨r, hr, beq_iff_eq.mpr hc⟩)
      refine ⟨?_, ?_⟩
      · have hlm : lastMatch st2.records e.edgeID = some { e with id := ID } := by
          rw [hrec, lastMatch_concat, if_pos ⟨rfl, hlen⟩]
        exact lookup_init_found hfails2 hlm
      · have hlm : lastMatch st2.records oldEid = none := by
          rw [hrec, lastMatch_concat]
          rw [if_neg]
          · apply lastMatch_none_of
            intro r hr hm
            exact hold r hr (hnotID r hr) hm.1
          · intro hc
            exact Ne.symm holdNe hc.1
        exact lookup_init_missing hfails2 hlm
  · rw [hf] at hok
    simp at hok

/-- Witness for C6 amended: update environment 1 from edge-ID "old" to
"new", re-initialize, and look up both edge-IDs. -/
theorem update_then_reinit_lookup_witness :
    Service.EndpointIDByEdgeID
        (Service.Init NewService
          { records := [{ id := 1, name := "n", edgeID := "new", lastCheckInDate := 0 }], fails := false }).1
        "new" = (1, true) ∧
    (Service.EndpointIDByEdgeID
        (Service.Init NewService
          { records := [{ id := 1, name := "n", edgeID := "new", lastCheckInDate := 0 }], fails := false }).1
        "old").2 = false := by
  have h := update_then_reinit_lookup
    { records := [{ id := 1, name := "n", edgeID := "old", lastCheckInDate := 0 }], fails := false }
    { records := [{ id := 1, name := "n", edgeID := "new", lastCheckInDate := 0 }], fails := false }
    1 { id := 1, name := "n", edgeID := "new", lastCheckInDate := 0 } "old"
    rfl rfl (by decide)
    (by intro r hr hne hc; simp at hr; rw [hr] at hne; exact hne rfl)
    (by intro r hr hne hc; simp at hr; rw [hr] at hne; exact hne rfl)
    (by decide)
  exact h
